import Mathlib

/-!
Verification of the figured-bass engine of `src/libmscore/figuredbass.h`
(MuseScore). The repository excerpt contains only the header; the bodies of
`FiguredBassItem::parse`, `FiguredBassItem::normalizedText`,
`FiguredBassItem::displayText`, `FiguredBass::layoutLines` and
`FiguredBass::layout` are declared there but implemented elsewhere, so those
operations are modelled from the specification (`spec.md`), as flagged in each
doc comment.  Inline member functions (`FiguredBass::lineLength`,
`setTicks`/`ticks`, `setOnNote`/`onNote`) are embedded directly from the
header source. Strings are embedded as `List Char`, `qreal` as `ℚ`,
C++ `int` as `ℤ`.
-/

namespace FiguredBassSpec

/-- The `FiguredBassItem::Modifier` enumeration from `figuredbass.h`
(constructors in declaration order, `ModifierNone = 0`). -/
inductive Modifier where
  | ModifierNone
  | ModifierDoubleFlat
  | ModifierFlat
  | ModifierNatural
  | ModifierSharp
  | ModifierDoubleSharp
  | ModifierPlus
  | ModifierBackslash
  | ModifierSlash
  deriving DecidableEq, Repr

/-- The `FiguredBassItem::Parenthesis` enumeration from `figuredbass.h`
(constructors in declaration order, `ParenthesisNone = 0`). -/
inductive Parenthesis where
  | ParenthesisNone
  | ParenthesisRoundOpen
  | ParenthesisRoundClosed
  | ParenthesisSquaredOpen
  | ParenthesisSquaredClosed
  deriving DecidableEq, Repr

open Modifier Parenthesis

/-- The data fields of a `FiguredBassItem` (header lines 121-126): the
accidental before the digit (`_prefix`, here `pref`), the main digit
(`_digit`, 0 meaning "no digit"), the accidental after the digit (`_suffix`,
here `suff`), the continuation-line flag (`_contLine`) and the five
parenthesis slots (`parenth[5]`, here `paren0`..`paren4`). -/
structure FiguredBassItem where
  pref : Modifier
  digit : ℤ
  suff : Modifier
  contLine : Bool
  paren0 : Parenthesis
  paren1 : Parenthesis
  paren2 : Parenthesis
  paren3 : Parenthesis
  paren4 : Parenthesis
  deriving DecidableEq, Repr

/-- Modelled from the spec: one optional-parenthesis slot of the tokenizer
(`FiguredBassItem::parseParenthesis`, whose body is not in the excerpt).
Per spec section 4.1 the slot is optional: a parenthesis character is consumed,
anything else leaves the cursor in place and yields `ParenthesisNone`. -/
def parseParenSlot : List Char → Parenthesis × List Char
  | '(' :: rest => (ParenthesisRoundOpen, rest)
  | ')' :: rest => (ParenthesisRoundClosed, rest)
  | '[' :: rest => (ParenthesisSquaredOpen, rest)
  | ']' :: rest => (ParenthesisSquaredClosed, rest)
  | l => (ParenthesisNone, l)

/-- Modelled from the spec: the accidental slot before the digit
(`FiguredBassItem::parsePrefixSuffix` with `bPrefix = true`, body not in the
excerpt).  Greedy longest match (spec section 4.1); only the accidentals
[doubleflat, flat, natural, sharp, doublesharp] are accepted here (header
line 34, spec section 3): Plus, Backslash and Slash never match this slot. -/
def parseModifierBefore : List Char → Modifier × List Char
  | 'b' :: 'b' :: rest => (ModifierDoubleFlat, rest)
  | '#' :: '#' :: rest => (ModifierDoubleSharp, rest)
  | 'b' :: rest => (ModifierFlat, rest)
  | 'h' :: rest => (ModifierNatural, rest)
  | '#' :: rest => (ModifierSharp, rest)
  | l => (ModifierNone, l)

/-- Modelled from the spec: the accidental/diacritic slot after the digit
(`FiguredBassItem::parsePrefixSuffix` with `bPrefix = false`, body not in the
excerpt).  Greedy longest match; additionally accepts Plus, Backslash and
Slash (header line 36, spec section 3). -/
def parseModifierAfter : List Char → Modifier × List Char
  | 'b' :: 'b' :: rest => (ModifierDoubleFlat, rest)
  | '#' :: '#' :: rest => (ModifierDoubleSharp, rest)
  | 'b' :: rest => (ModifierFlat, rest)
  | 'h' :: rest => (ModifierNatural, rest)
  | '#' :: rest => (ModifierSharp, rest)
  | '+' :: rest => (ModifierPlus, rest)
  | '\\' :: rest => (ModifierBackslash, rest)
  | '/' :: rest => (ModifierSlash, rest)
  | l => (ModifierNone, l)

/-- Numeric value of a digit character `1`-`9`; any other character yields 0
(the "no digit" sentinel). -/
def digitVal (c : Char) : ℤ :=
  if c = '1' then 1 else if c = '2' then 2 else if c = '3' then 3
  else if c = '4' then 4 else if c = '5' then 5 else if c = '6' then 6
  else if c = '7' then 7 else if c = '8' then 8 else if c = '9' then 9 else 0

/-- Modelled from the spec: the digit slot (`FiguredBassItem::parseDigit`,
body not in the excerpt).  A digit character `1`-`9` (header line 35: "one
digit from 1 to 9") is consumed; an absent digit yields the sentinel 0
(spec section 3: 0 is the valid "no digit, symbol-only" value). -/
def parseDigitSlot : List Char → ℤ × List Char
  | [] => (0, [])
  | c :: rest => if digitVal c = 0 then (0, c :: rest) else (digitVal c, rest)

/-- Modelled from the spec: the continuation-marker slot (spec section 4.1),
an underscore in the token grammar. -/
def parseContSlot : List Char → Bool × List Char
  | '_' :: rest => (true, rest)
  | l => (false, l)

/-- Modelled from the spec: `FiguredBassItem::parse` (declared at header
line 161, body not in the excerpt).  Per spec section 4.1 the line is consumed
left-to-right through the ordered slots [paren] [accidental-before] [paren]
[digit] [paren] [accidental-after] [paren] [continuation] [paren]; an item with
no digit, no modifier and no continuation marker is rejected (EmptyItem), and
unconsumed trailing characters reject the item (TrailingGarbage). -/
def parse (l : List Char) : Option FiguredBassItem :=
  let r0 := parseParenSlot l
  let r1 := parseModifierBefore r0.2
  let r2 := parseParenSlot r1.2
  let r3 := parseDigitSlot r2.2
  let r4 := parseParenSlot r3.2
  let r5 := parseModifierAfter r4.2
  let r6 := parseParenSlot r5.2
  let r7 := parseContSlot r6.2
  let r8 := parseParenSlot r7.2
  if r8.2 = [] then
    if r3.1 = 0 ∧ r1.1 = ModifierNone ∧ r5.1 = ModifierNone ∧ r7.1 = false then
      none
    else
      some ⟨r1.1, r3.1, r5.1, r7.1, r0.1, r2.1, r4.1, r6.1, r8.1⟩
  else none

/-- Canonical token of a parenthesis flag (the `normParenthToChar` table,
header line 117; glyph choice modelled from the spec's fixed unambiguous
mapping, section 4.2). -/
def tokOfParen : Parenthesis → List Char
  | ParenthesisNone => []
  | ParenthesisRoundOpen => ['(']
  | ParenthesisRoundClosed => [')']
  | ParenthesisSquaredOpen => ['[']
  | ParenthesisSquaredClosed => [']']

/-- Canonical token of a modifier (fixed unambiguous glyph-per-modifier
mapping, spec section 4.2). -/
def tokOfModifier : Modifier → List Char
  | ModifierNone => []
  | ModifierDoubleFlat => ['b', 'b']
  | ModifierFlat => ['b']
  | ModifierNatural => ['h']
  | ModifierSharp => ['#']
  | ModifierDoubleSharp => ['#', '#']
  | ModifierPlus => ['+']
  | ModifierBackslash => ['\\']
  | ModifierSlash => ['/']

/-- Canonical token of the digit field: empty for the 0 sentinel, else the
decimal digit character. -/
def tokOfDigit (d : ℤ) : List Char :=
  if d = 0 then [] else [Char.ofNat (48 + d.toNat)]

/-- Canonical token of the continuation-line flag: an underscore when set. -/
def tokOfCont (b : Bool) : List Char :=
  if b then ['_'] else []

/-- Modelled from the spec: `FiguredBassItem::normalizedText` (declared at
header line 182, body not in the excerpt): the canonical text of an item,
emitting the slots in the parser's fixed order (spec section 4.2). -/
def normalizedText (i : FiguredBassItem) : List Char :=
  tokOfParen i.paren0 ++ tokOfModifier i.pref ++ tokOfParen i.paren1 ++
    tokOfDigit i.digit ++ tokOfParen i.paren2 ++ tokOfModifier i.suff ++
    tokOfParen i.paren3 ++ tokOfCont i.contLine ++ tokOfParen i.paren4

lemma parseParenSlot_consumed (l : List Char) :
    tokOfParen (parseParenSlot l).1 ++ (parseParenSlot l).2 = l := by
  unfold parseParenSlot
  split <;> rfl

lemma parseModifierBefore_consumed (l : List Char) :
    tokOfModifier (parseModifierBefore l).1 ++ (parseModifierBefore l).2 = l := by
  unfold parseModifierBefore
  split <;> rfl

lemma parseModifierAfter_consumed (l : List Char) :
    tokOfModifier (parseModifierAfter l).1 ++ (parseModifierAfter l).2 = l := by
  unfold parseModifierAfter
  split <;> rfl

lemma tokOfDigit_digitVal (c : Char) :
    digitVal c = 0 ∨ tokOfDigit (digitVal c) = [c] := by
  unfold digitVal
  split_ifs with h1 h2 h3 h4 h5 h6 h7 h8 h9
  all_goals first
    | (right; subst_vars; decide)
    | (left; rfl)

lemma parseDigitSlot_consumed (l : List Char) :
    tokOfDigit (parseDigitSlot l).1 ++ (parseDigitSlot l).2 = l := by
  match l with
  | [] => rfl
  | c :: rest =>
    simp only [parseDigitSlot]
    by_cases h0 : digitVal c = 0
    · rw [if_pos h0]
      rfl
    · rw [if_neg h0]
      rcases tokOfDigit_digitVal c with h | h
      · exact absurd h h0
      · show tokOfDigit (digitVal c) ++ rest = c :: rest
        rw [h]
        rfl

lemma parseContSlot_consumed (l : List Char) :
    tokOfCont (parseContSlot l).1 ++ (parseContSlot l).2 = l := by
  unfold parseContSlot
  split <;> rfl

/-- A successful parse determines its input: every slot's value is produced by
exactly one token, and the trailing-garbage check forbids leftovers, so the
consumed input is the canonical text of the resulting item. -/
lemma normalizedText_of_parse {s : List Char} {i : FiguredBassItem}
    (h : parse s = some i) : normalizedText i = s := by
  unfold parse at h
  by_cases hrest :
      (parseParenSlot (parseContSlot (parseParenSlot (parseModifierAfter
        (parseParenSlot (parseDigitSlot (parseParenSlot (parseModifierBefore
          (parseParenSlot s).2).2).2).2).2).2).2).2).2 = []
  · rw [if_pos hrest] at h
    by_cases hempty :
        (parseDigitSlot (parseParenSlot (parseModifierBefore
            (parseParenSlot s).2).2).2).1 = 0 ∧
          (parseModifierBefore (parseParenSlot s).2).1 = ModifierNone ∧
          (parseModifierAfter (parseParenSlot (parseDigitSlot (parseParenSlot
            (parseModifierBefore (parseParenSlot s).2).2).2).2).2).1 =
              ModifierNone ∧
          (parseContSlot (parseParenSlot (parseModifierAfter (parseParenSlot
            (parseDigitSlot (parseParenSlot (parseModifierBefore
              (parseParenSlot s).2).2).2).2).2).2).2).1 = false
    · rw [if_pos hempty] at h
      exact absurd h (by simp)
    · rw [if_neg hempty] at h
      have hi := Option.some.inj h
      subst hi
      have e0 := parseParenSlot_consumed s
      have e1 := parseModifierBefore_consumed (parseParenSlot s).2
      have e2 := parseParenSlot_consumed (parseModifierBefore (parseParenSlot s).2).2
      have e3 := parseDigitSlot_consumed (parseParenSlot (parseModifierBefore
        (parseParenSlot s).2).2).2
      have e4 := parseParenSlot_consumed (parseDigitSlot (parseParenSlot
        (parseModifierBefore (parseParenSlot s).2).2).2).2
      have e5 := parseModifierAfter_consumed (parseParenSlot (parseDigitSlot
        (parseParenSlot (parseModifierBefore (parseParenSlot s).2).2).2).2).2
      have e6 := parseParenSlot_consumed (parseModifierAfter (parseParenSlot
        (parseDigitSlot (parseParenSlot (parseModifierBefore
          (parseParenSlot s).2).2).2).2).2).2
      have e7 := parseContSlot_consumed (parseParenSlot (parseModifierAfter
        (parseParenSlot (parseDigitSlot (parseParenSlot (parseModifierBefore
          (parseParenSlot s).2).2).2).2).2).2).2
      have e8 := parseParenSlot_consumed (parseContSlot (parseParenSlot
        (parseModifierAfter (parseParenSlot (parseDigitSlot (parseParenSlot
          (parseModifierBefore (parseParenSlot s).2).2).2).2).2).2).2).2
      simp only [normalizedText]
      conv_rhs => rw [← e0]
      conv_rhs => rw [← e1]
      conv_rhs => rw [← e2]
      conv_rhs => rw [← e3]
      conv_rhs => rw [← e4]
      conv_rhs => rw [← e5]
      conv_rhs => rw [← e6]
      conv_rhs => rw [← e7]
      conv_rhs => rw [← e8]
      rw [hrest]
      simp
  · rw [if_neg hrest] at h
    exact absurd h (by simp)

/-- Inversion on a successful parse: the `pref` and `digit` fields are outputs
of their slot functions, and the EmptyItem check guarantees the item is not
entirely absent. -/
lemma parse_shape {s : List Char} {i : FiguredBassItem}
    (h : parse s = some i) :
    (∃ l, i.pref = (parseModifierBefore l).1) ∧
    (∃ l, i.digit = (parseDigitSlot l).1) ∧
    ¬(i.digit = 0 ∧ i.pref = Modifier.ModifierNone ∧
        i.suff = Modifier.ModifierNone ∧ i.contLine = false) := by
  unfold parse at h
  by_cases hrest :
      (parseParenSlot (parseContSlot (parseParenSlot (parseModifierAfter
        (parseParenSlot (parseDigitSlot (parseParenSlot (parseModifierBefore
          (parseParenSlot s).2).2).2).2).2).2).2).2).2 = []
  · rw [if_pos hrest] at h
    by_cases hempty :
        (parseDigitSlot (parseParenSlot (parseModifierBefore
            (parseParenSlot s).2).2).2).1 = 0 ∧
          (parseModifierBefore (parseParenSlot s).2).1 = ModifierNone ∧
          (parseModifierAfter (parseParenSlot (parseDigitSlot (parseParenSlot
            (parseModifierBefore (parseParenSlot s).2).2).2).2).2).1 =
              ModifierNone ∧
          (parseContSlot (parseParenSlot (parseModifierAfter (parseParenSlot
            (parseDigitSlot (parseParenSlot (parseModifierBefore
              (parseParenSlot s).2).2).2).2).2).2).2).1 = false
    · rw [if_pos hempty] at h
      exact absurd h (by simp)
    · rw [if_neg hempty] at h
      have hi := Option.some.inj h
      subst hi
      refine ⟨⟨_, rfl⟩, ⟨_, rfl⟩, ?_⟩
      simpa using hempty
  · rw [if_neg hrest] at h
    exact absurd h (by simp)

lemma parseModifierBefore_accidental (l : List Char) :
    (parseModifierBefore l).1 ≠ ModifierPlus ∧
    (parseModifierBefore l).1 ≠ ModifierBackslash ∧
    (parseModifierBefore l).1 ≠ ModifierSlash := by
  unfold parseModifierBefore
  split <;> simp

lemma digitVal_range (c : Char) : 0 ≤ digitVal c ∧ digitVal c ≤ 9 := by
  unfold digitVal
  split_ifs <;> norm_num

lemma parseDigitSlot_range (l : List Char) :
    0 ≤ (parseDigitSlot l).1 ∧ (parseDigitSlot l).1 ≤ 9 := by
  match l with
  | [] => norm_num [parseDigitSlot]
  | c :: rest =>
    simp only [parseDigitSlot]
    by_cases h0 : digitVal c = 0
    · rw [if_pos h0]
      norm_num
    · rw [if_neg h0]
      exact digitVal_range c

/-- C1: Round-trip law — for every validly parseable structured item `i`
(i.e. every item some raw line parses to), parsing the canonical text produced
by the encoder yields an item equal to `i`:
`parse (normalizedText i) = some i`. -/
theorem parse_normalizedText_roundtrip (s : List Char) (i : FiguredBassItem)
    (h : parse s = some i) : parse (normalizedText i) = some i := by
  rw [normalizedText_of_parse h]
  exact h

/-- Witness for C1: the round-trip theorem applied to the item parsed from
the raw line `#6\`. -/
theorem parse_normalizedText_roundtrip_witness :
    parse (normalizedText ⟨ModifierSharp, 6, ModifierBackslash, false,
        ParenthesisNone, ParenthesisNone, ParenthesisNone, ParenthesisNone,
        ParenthesisNone⟩) =
      some ⟨ModifierSharp, 6, ModifierBackslash, false, ParenthesisNone,
        ParenthesisNone, ParenthesisNone, ParenthesisNone, ParenthesisNone⟩ :=
  parse_normalizedText_roundtrip ['#', '6', '\\'] _ (by decide)

/-- C3: Digit-range invariant — every successfully parsed item has its digit
in [0,9], and 0 is a valid "no digit, symbol-only" value: an item whose digit
is 0 but which carries a modifier (here the flat produced by raw line `b`)
is accepted. -/
theorem parse_digit_range :
    (∀ (s : List Char) (i : FiguredBassItem), parse s = some i →
        0 ≤ i.digit ∧ i.digit ≤ 9) ∧
    (∃ j, parse ['b'] = some j ∧ j.digit = 0 ∧
        (j.pref ≠ ModifierNone ∨ j.suff ≠ ModifierNone ∨ j.contLine = true)) := by
  constructor
  · intro s i h
    obtain ⟨_, ⟨l, hd⟩, _⟩ := parse_shape h
    rw [hd]
    exact parseDigitSlot_range l
  · exact ⟨⟨ModifierFlat, 0, ModifierNone, false, ParenthesisNone,
      ParenthesisNone, ParenthesisNone, ParenthesisNone, ParenthesisNone⟩,
      by decide, by decide, by decide⟩

/-- Witness for C3: the digit-range theorem applied to the item parsed from
the raw line `6`. -/
theorem parse_digit_range_witness :
    0 ≤ (FiguredBassItem.mk ModifierNone 6 ModifierNone false ParenthesisNone
        ParenthesisNone ParenthesisNone ParenthesisNone ParenthesisNone).digit ∧
      (FiguredBassItem.mk ModifierNone 6 ModifierNone false ParenthesisNone
        ParenthesisNone ParenthesisNone ParenthesisNone ParenthesisNone).digit ≤ 9 :=
  parse_digit_range.1 ['6'] _ (by decide)

/-- C4: Prefix rejection — no successfully parsed item carries Plus, Backslash
or Slash in the before-digit modifier slot; in particular the raw line `\6`
is rejected while `#6\` parses to (sharp, 6, backslash). -/
theorem parse_pref_rejection :
    (∀ (s : List Char) (i : FiguredBassItem), parse s = some i →
        i.pref ≠ ModifierPlus ∧ i.pref ≠ ModifierBackslash ∧
          i.pref ≠ ModifierSlash) ∧
    parse ['\\', '6'] = none ∧
    parse ['#', '6', '\\'] = some ⟨ModifierSharp, 6, ModifierBackslash, false,
      ParenthesisNone, ParenthesisNone, ParenthesisNone, ParenthesisNone,
      ParenthesisNone⟩ := by
  refine ⟨?_, by decide, by decide⟩
  intro s i h
  obtain ⟨⟨l, hp⟩, _, _⟩ := parse_shape h
  rw [hp]
  exact parseModifierBefore_accidental l

/-- Witness for C4: the rejection theorem applied to the item parsed from the
raw line `#6\`. -/
theorem parse_pref_rejection_witness :
    (FiguredBassItem.mk ModifierSharp 6 ModifierBackslash false ParenthesisNone
        ParenthesisNone ParenthesisNone ParenthesisNone
        ParenthesisNone).pref ≠ ModifierPlus ∧
    (FiguredBassItem.mk ModifierSharp 6 ModifierBackslash false ParenthesisNone
        ParenthesisNone ParenthesisNone ParenthesisNone
        ParenthesisNone).pref ≠ ModifierBackslash ∧
    (FiguredBassItem.mk ModifierSharp 6 ModifierBackslash false ParenthesisNone
        ParenthesisNone ParenthesisNone ParenthesisNone
        ParenthesisNone).pref ≠ ModifierSlash :=
  parse_pref_rejection.1 ['#', '6', '\\'] _ (by decide)

/-- C5: Empty-item rejection — a raw line whose slots yield no digit, no
modifiers and no continuation marker is rejected, and every successfully
parsed item carries at least a digit, a modifier or a continuation marker
(concretely, the empty line and the line `(]` are rejected). -/
theorem parse_empty_rejection :
    (∀ s : List Char,
        (parseDigitSlot (parseParenSlot (parseModifierBefore
            (parseParenSlot s).2).2).2).1 = 0 →
        (parseModifierBefore (parseParenSlot s).2).1 = ModifierNone →
        (parseModifierAfter (parseParenSlot (parseDigitSlot (parseParenSlot
            (parseModifierBefore (parseParenSlot s).2).2).2).2).2).1 =
          ModifierNone →
        (parseContSlot (parseParenSlot (parseModifierAfter (parseParenSlot
            (parseDigitSlot (parseParenSlot (parseModifierBefore
              (parseParenSlot s).2).2).2).2).2).2).2).1 = false →
        parse s = none) ∧
    (∀ (s : List Char) (i : FiguredBassItem), parse s = some i →
        i.digit ≠ 0 ∨ i.pref ≠ ModifierNone ∨ i.suff ≠ ModifierNone ∨
          i.contLine = true) ∧
    parse [] = none ∧ parse ['(', ']'] = none := by
  refine ⟨?_, ?_, by decide, by decide⟩
  · intro s h1 h2 h3 h4
    unfold parse
    dsimp only
    split
    · exact if_pos ⟨h1, h2, h3, h4⟩
    · rfl
  · intro s i h
    obtain ⟨_, _, hne⟩ := parse_shape h
    by_contra hcon
    push_neg at hcon
    obtain ⟨c1, c2, c3, c4⟩ := hcon
    exact hne ⟨c1, c2, c3, by simpa using c4⟩

/-- Witness for C5: the empty-item theorem applied to the empty raw line and
to the item parsed from the raw line `_`. -/
theorem parse_empty_rejection_witness :
    parse ([] : List Char) = none ∧
    ((FiguredBassItem.mk ModifierNone 0 ModifierNone true ParenthesisNone
          ParenthesisNone ParenthesisNone ParenthesisNone
          ParenthesisNone).digit ≠ 0 ∨
      (FiguredBassItem.mk ModifierNone 0 ModifierNone true ParenthesisNone
          ParenthesisNone ParenthesisNone ParenthesisNone
          ParenthesisNone).pref ≠ ModifierNone ∨
      (FiguredBassItem.mk ModifierNone 0 ModifierNone true ParenthesisNone
          ParenthesisNone ParenthesisNone ParenthesisNone
          ParenthesisNone).suff ≠ ModifierNone ∨
      (FiguredBassItem.mk ModifierNone 0 ModifierNone true ParenthesisNone
          ParenthesisNone ParenthesisNone ParenthesisNone
          ParenthesisNone).contLine = true) :=
  ⟨parse_empty_rejection.1 [] (by decide) (by decide) (by decide) (by decide),
    parse_empty_rejection.2.1 ['_'] _ (by decide)⟩

/-- Modelled from the spec: splitting the raw multi-line annotation text into
its lines at line-break characters (spec section 4.1: "lines are pre-split by
the caller on line-break characters"). -/
def splitLines : List Char → List (List Char)
  | [] => [[]]
  | c :: rest =>
    if c = '\n' then [] :: splitLines rest
    else
      match splitLines rest with
      | [] => [[c]]
      | l :: ls => (c :: l) :: ls

/-- Modelled from the spec: parse every line of an annotation; `none` as soon
as any one line fails (all-or-nothing, spec section 7). -/
def parseAll : List (List Char) → Option (List FiguredBassItem)
  | [] => some []
  | line :: rest =>
    match parse line, parseAll rest with
    | some it, some its => some (it :: its)
    | _, _ => none

/-- Join canonical line texts back into one multi-line text. -/
def joinLines : List (List Char) → List Char
  | [] => []
  | [l] => l
  | l :: ls => l ++ '\n' :: joinLines ls

/-- The data fields of a `FiguredBass` (header lines 224-227): the individual
lines (`items`), the inherited `Text` content (`text`, holding the raw or the
normalized annotation text), the continuation-line lengths (`_lineLenghts`,
source spelling kept), `_onNote` and `_ticks`. -/
structure FiguredBass where
  items : List FiguredBassItem
  text : List Char
  lineLenghts : List ℚ
  onNote : Bool
  ticks : ℤ
  deriving DecidableEq, Repr

/-- Modelled from the spec: re-parsing the whole multi-line annotation of a
`FiguredBass` (the body of `FiguredBass::endEdit` is not in the excerpt;
header lines 45-48 and spec section 3): every line is parsed; on total success
the items are replaced wholesale and the text becomes the joined normalized
texts; if any line fails, the items list becomes empty and the raw text is
kept verbatim. -/
def parseFBText (fb : FiguredBass) (raw : List Char) : FiguredBass :=
  match parseAll (splitLines raw) with
  | some its =>
      { fb with items := its, text := joinLines (its.map normalizedText) }
  | none => { fb with items := [], text := raw }

lemma parseAll_none {lines : List (List Char)} {line : List Char}
    (hmem : line ∈ lines) (hfail : parse line = none) :
    parseAll lines = none := by
  induction lines with
  | nil => cases hmem
  | cons hd tl ih =>
    rcases List.mem_cons.mp hmem with h | h
    · subst h
      unfold parseAll
      rw [hfail]
    · unfold parseAll
      rw [ih h]
      cases parse hd <;> rfl

/-- C2: All-or-nothing fallback atomicity — if any one line of a multi-line
raw annotation fails to parse, the owning `FiguredBass` ends in the
fallback-literal state: its items list is empty and the original raw text is
retained character-for-character. -/
theorem parseFBText_fallback (fb : FiguredBass) (raw line : List Char)
    (hmem : line ∈ splitLines raw) (hfail : parse line = none) :
    (parseFBText fb raw).items = [] ∧ (parseFBText fb raw).text = raw := by
  unfold parseFBText
  rw [parseAll_none hmem hfail]
  exact ⟨rfl, rfl⟩

/-- Witness for C2: the fallback theorem applied to the two-line raw text
`6`, `??` whose second line is malformed. -/
theorem parseFBText_fallback_witness :
    (parseFBText ⟨[], [], [], false, 0⟩ ['6', '\n', '?', '?']).items = [] ∧
    (parseFBText ⟨[], [], [], false, 0⟩ ['6', '\n', '?', '?']).text =
      ['6', '\n', '?', '?'] :=
  parseFBText_fallback ⟨[], [], [], false, 0⟩ ['6', '\n', '?', '?'] ['?', '?']
    (by decide) (by decide)

/-- `FiguredBass::lineLength` (header lines 275-277), embedded from the
source: if the stored vector is longer than `idx` the stored entry is
returned (the C++ `.at(idx)` access is meaningful only for `0 ≤ idx`),
otherwise 0. -/
def FiguredBass.lineLength (fb : FiguredBass) (idx : ℤ) : ℚ :=
  if idx < (fb.lineLenghts.length : ℤ) then fb.lineLenghts.getD idx.toNat 0
  else 0

/-- C9: `lineLength` totality at the upper bound — for every index at or
beyond the number of stored lengths the result is 0, and for every
`0 ≤ idx < size` the stored value is returned (the guard checks only the
upper bound, so `0 ≤ idx` is a precondition of the in-range branch). -/
theorem lineLength_bounds :
    (∀ (fb : FiguredBass) (idx : ℤ), (fb.lineLenghts.length : ℤ) ≤ idx →
        fb.lineLength idx = 0) ∧
    (∀ (fb : FiguredBass) (idx : ℤ), 0 ≤ idx →
        idx < (fb.lineLenghts.length : ℤ) →
        ∃ hlt : idx.toNat < fb.lineLenghts.length,
          fb.lineLength idx = fb.lineLenghts.get ⟨idx.toNat, hlt⟩) := by
  constructor
  · intro fb idx hge
    unfold FiguredBass.lineLength
    rw [if_neg (not_lt.mpr hge)]
  · intro fb idx h0 hlt
    have hn : idx.toNat < fb.lineLenghts.length := by omega
    refine ⟨hn, ?_⟩
    unfold FiguredBass.lineLength
    rw [if_pos hlt, List.getD_eq_getElem _ _ hn]
    rfl

/-- Witness for C9: the bounds theorem applied to a stored vector `[3, 7]`
at the out-of-range index 5 and the in-range index 1. -/
theorem lineLength_bounds_witness :
    (FiguredBass.mk [] [] [3, 7] false 0).lineLength 5 = 0 ∧
    ∃ hlt : (1 : ℤ).toNat < (FiguredBass.mk [] [] [3, 7] false 0).lineLenghts.length,
      (FiguredBass.mk [] [] [3, 7] false 0).lineLength 1 =
        (FiguredBass.mk [] [] [3, 7] false 0).lineLenghts.get ⟨(1 : ℤ).toNat, hlt⟩ :=
  ⟨lineLength_bounds.1 (FiguredBass.mk [] [] [3, 7] false 0) 5 (by norm_num),
    lineLength_bounds.2 (FiguredBass.mk [] [] [3, 7] false 0) 1 (by norm_num)
      (by norm_num)⟩

/-- `FiguredBass::setTicks` (header line 282), embedded from the source:
plain assignment of the `_ticks` field. -/
def FiguredBass.setTicks (fb : FiguredBass) (v : ℤ) : FiguredBass :=
  { fb with ticks := v }

/-- `FiguredBass::setOnNote` (header line 279), embedded from the source:
plain assignment of the `_onNote` field. -/
def FiguredBass.setOnNote (fb : FiguredBass) (v : Bool) : FiguredBass :=
  { fb with onNote := v }

/-- C10: frame property of the plain setters — `setTicks v` makes `ticks`
return `v` and `setOnNote b` makes `onNote` return `b`, and each call leaves
every other observable field (`items`, `text`, `lineLenghts`, and the
respective other of `onNote`/`ticks`) unchanged. -/
theorem setTicks_setOnNote_frame (fb : FiguredBass) (v : ℤ) (b : Bool) :
    (fb.setTicks v).ticks = v ∧ (fb.setTicks v).onNote = fb.onNote ∧
    (fb.setTicks v).items = fb.items ∧
    (fb.setTicks v).lineLenghts = fb.lineLenghts ∧
    (fb.setTicks v).text = fb.text ∧
    (fb.setOnNote b).onNote = b ∧ (fb.setOnNote b).ticks = fb.ticks ∧
    (fb.setOnNote b).items = fb.items ∧
    (fb.setOnNote b).lineLenghts = fb.lineLenghts ∧
    (fb.setOnNote b).text = fb.text :=
  ⟨rfl, rfl, rfl, rfl, rfl, rfl, rfl, rfl, rfl, rfl⟩

/-- Modelled from the spec: the timeline context consumed by
`FiguredBass::layoutLines` (declared header line 229, body not in the
excerpt): this element's tick position, the tick of the next onset-aligned
`FiguredBass` on the same staff (if any), the tick ending the encompassing
note/chord duration (if any), and the tick ending the piece (spec
sections 4.4 and 6). -/
structure TimelineContext where
  pos : ℤ
  nextFBTick : Option ℤ
  chordEndTick : Option ℤ
  pieceEndTick : ℤ
  deriving DecidableEq, Repr

/-- Modelled from the spec: the forward boundary terminating a continuation
line — the earlier of the next `FiguredBass` on the same staff and the end of
the encompassing note/chord duration; when no forward boundary exists at all
the line extends to the end of the piece, without error (spec sections 4.4
and 7, `NoForwardBoundary`). -/
def contBoundary (ctx : TimelineContext) : ℤ :=
  match ctx.nextFBTick, ctx.chordEndTick with
  | some n, some c => min n c
  | some n, none => n
  | none, some c => c
  | none, none => ctx.pieceEndTick

/-- Modelled from the spec: `FiguredBass::layoutLines` (declared header line
229, body not in the excerpt): one length per item — 0 for an item without a
continuation line, the tick extent from this element's position to the
forward boundary otherwise (spec section 4.4). -/
def layoutLines (fb : FiguredBass) (ctx : TimelineContext) : List ℚ :=
  fb.items.map fun it =>
    if it.contLine then ((contBoundary ctx - ctx.pos : ℤ) : ℚ) else 0

lemma layoutLines_getD (fb : FiguredBass) (ctx : TimelineContext) (i : ℕ)
    (h : i < fb.items.length) :
    (layoutLines fb ctx).getD i 0 =
      if (fb.items.get ⟨i, h⟩).contLine then
        ((contBoundary ctx - ctx.pos : ℤ) : ℚ)
      else 0 := by
  unfold layoutLines
  have hlen : i < (fb.items.map fun it =>
      if it.contLine then ((contBoundary ctx - ctx.pos : ℤ) : ℚ) else 0).length := by
    simpa using h
  rw [List.getD_eq_getElem _ _ hlen, List.getElem_map]
  simp [List.get_eq_getElem]

/-- C6: Continuation-line lengths — after layout, an item without a
continuation line gets length 0; an item with one gets the extent from this
element's position to the earlier of the next onset-aligned `FiguredBass` on
the same staff and the end of the encompassing note/chord duration; with no
forward boundary at all the line runs to the end of the piece; and in the
spec's example (position 0, no subsequent `FiguredBass`, next onset ending
the chord at tick 960) the length spans exactly the 960-tick gap. -/
theorem layoutLines_lengths :
    (∀ (fb : FiguredBass) (ctx : TimelineContext) (i : ℕ)
        (h : i < fb.items.length),
        (fb.items.get ⟨i, h⟩).contLine = false →
        (layoutLines fb ctx).getD i 0 = 0) ∧
    (∀ (fb : FiguredBass) (ctx : TimelineContext) (i : ℕ)
        (h : i < fb.items.length),
        (fb.items.get ⟨i, h⟩).contLine = true →
        (layoutLines fb ctx).getD i 0 =
          ((contBoundary ctx - ctx.pos : ℤ) : ℚ)) ∧
    (∀ (ctx : TimelineContext) (n c : ℤ), ctx.nextFBTick = some n →
        ctx.chordEndTick = some c → contBoundary ctx = min n c) ∧
    (∀ ctx : TimelineContext, ctx.nextFBTick = none →
        ctx.chordEndTick = none → contBoundary ctx = ctx.pieceEndTick) ∧
    (∀ (fb : FiguredBass) (ctx : TimelineContext) (i : ℕ)
        (h : i < fb.items.length),
        fb.ticks = 480 → ctx.pos = 0 → ctx.nextFBTick = none →
        ctx.chordEndTick = some 960 →
        (fb.items.get ⟨i, h⟩).contLine = true →
        (layoutLines fb ctx).getD i 0 = 960) := by
  refine ⟨?_, ?_, ?_, ?_, ?_⟩
  · intro fb ctx i h hc
    rw [layoutLines_getD fb ctx i h, hc]
    rfl
  · intro fb ctx i h hc
    rw [layoutLines_getD fb ctx i h, hc]
    rfl
  · intro ctx n c hn hc
    unfold contBoundary
    rw [hn, hc]
  · intro ctx hn hc
    unfold contBoundary
    rw [hn, hc]
  · intro fb ctx i h _ hpos hn hc hcont
    rw [layoutLines_getD fb ctx i h, hcont]
    unfold contBoundary
    rw [hn, hc, hpos]
    norm_num

/-- Witness for C6: the lengths theorem applied to a one-item stack whose
item carries a continuation line, with `ticks = 480`, position 0, no
subsequent `FiguredBass` and the chord ending at tick 960. -/
theorem layoutLines_lengths_witness :
    (layoutLines
        (FiguredBass.mk
          [FiguredBassItem.mk Modifier.ModifierNone 6 Modifier.ModifierNone
            true ParenthesisNone ParenthesisNone ParenthesisNone
            ParenthesisNone ParenthesisNone]
          ['6', '_'] [] true 480)
        (TimelineContext.mk 0 none (some 960) 1920)).getD 0 0 = 960 :=
  layoutLines_lengths.2.2.2.2
    (FiguredBass.mk
      [FiguredBassItem.mk Modifier.ModifierNone 6 Modifier.ModifierNone
        true ParenthesisNone ParenthesisNone ParenthesisNone
        ParenthesisNone ParenthesisNone]
      ['6', '_'] [] true 480)
    (TimelineContext.mk 0 none (some 960) 1920) 0 (by decide) rfl rfl rfl rfl
    (by decide)

/-- Modelled from the spec: the stack-wide maximum of the items' before-digit
segment display widths (`FiguredBass::layout`, declared header line 251, body
not in the excerpt; spec section 4.4). -/
def maxPrefWidth (ws : List ℚ) : ℚ :=
  ws.foldr max 0

/-- Modelled from the spec: the per-item horizontal offsets of a stack whose
items have before-digit segment display widths `ws`: each offset is the
stack-wide maximum width minus the item's own width, so digit glyphs align on
a common column (spec section 4.4). -/
def stackOffsets (ws : List ℚ) : List ℚ :=
  ws.map fun w => maxPrefWidth ws - w

lemma le_maxPrefWidth {ws : List ℚ} {w : ℚ} (hw : w ∈ ws) :
    w ≤ maxPrefWidth ws := by
  induction ws with
  | nil => cases hw
  | cons hd tl ih =>
    rcases List.mem_cons.mp hw with h | h
    · subst h
      exact le_max_left _ _
    · exact le_trans (ih h) (le_max_right _ _)

lemma maxPrefWidth_le {ws : List ℚ} {x : ℚ} (h0 : 0 ≤ x)
    (hall : ∀ w ∈ ws, w ≤ x) : maxPrefWidth ws ≤ x := by
  induction ws with
  | nil => exact h0
  | cons hd tl ih =>
    refine max_le (hall hd (List.mem_cons_self hd tl)) ?_
    exact ih fun w hw => hall w (List.mem_cons_of_mem hd hw)

/-- C7: Stack alignment — each item's horizontal offset equals the stack-wide
maximum before-digit display width minus that item's own width; an item whose
width is maximal (and nonnegative) gets offset 0; and for widths `[0, 3, 5]`
the offsets are `[5, 2, 0]`. -/
theorem stackOffsets_align :
    (∀ (ws : List ℚ) (i : ℕ) (h : i < ws.length),
        (stackOffsets ws).getD i 0 = maxPrefWidth ws - ws.get ⟨i, h⟩) ∧
    (∀ (ws : List ℚ) (i : ℕ) (h : i < ws.length), 0 ≤ ws.get ⟨i, h⟩ →
        (∀ w ∈ ws, w ≤ ws.get ⟨i, h⟩) →
        (stackOffsets ws).getD i 0 = 0) ∧
    stackOffsets [0, 3, 5] = [5, 2, 0] := by
  have hbase : ∀ (ws : List ℚ) (i : ℕ) (h : i < ws.length),
      (stackOffsets ws).getD i 0 = maxPrefWidth ws - ws.get ⟨i, h⟩ := by
    intro ws i h
    unfold stackOffsets
    have hlen : i < (ws.map fun w => maxPrefWidth ws - w).length := by
      simpa using h
    rw [List.getD_eq_getElem _ _ hlen, List.getElem_map]
    simp [List.get_eq_getElem]
  refine ⟨hbase, ?_, ?_⟩
  · intro ws i h hpos hmax
    rw [hbase ws i h]
    have h1 : ws.get ⟨i, h⟩ ≤ maxPrefWidth ws :=
      le_maxPrefWidth (List.get_mem ws i h)
    have h2 : maxPrefWidth ws ≤ ws.get ⟨i, h⟩ := maxPrefWidth_le hpos hmax
    linarith
  · show stackOffsets [0, 3, 5] = [5, 2, 0]
    norm_num [stackOffsets, maxPrefWidth]

/-- Witness for C7: the alignment theorem applied to the width stack
`[0, 3, 5]` at index 2 (the widest item). -/
theorem stackOffsets_align_witness :
    (stackOffsets [0, 3, 5]).getD 2 0 = 0 :=
  stackOffsets_align.2.1 [0, 3, 5] 2 (by norm_num) (by norm_num)
    (by intro w hw; fin_cases hw <;> norm_num)

/-- The glyph table of one figured-bass font, following the array dimensions
of `struct FiguredBassFont` in the header (lines 197-207):
`displayAccidental[6]`, `displayParenthesis[5]`, `displayDigit[2][10][4]`.
An entry may be missing (`none`): modelled from the spec, section 4.2, the
display code then substitutes a default/blank glyph instead of failing. -/
structure FiguredBassFont where
  family : List Char
  displayName : List Char
  defPitch : ℚ
  defLineHeight : ℚ
  displayAccidental : Fin 6 → Option Char
  displayParenthesis : Fin 5 → Option Char
  displayDigit : Fin 2 → Fin 10 → Fin 4 → Option Char

/-- The default/blank glyph substituted for a missing table entry. -/
def blankGlyph : Char := ' '

/-- Glyph lookup with the blank fallback: a missing entry never fails. -/
def glyphOr (o : Option Char) : Char :=
  o.getD blankGlyph

/-- Modelled from the spec: the glyphs contributed by a parenthesis flag
(indices follow the `Parenthesis` enum ordinals into
`displayParenthesis[5]`). -/
def parenGlyph (f : FiguredBassFont) : Parenthesis → List Char
  | ParenthesisNone => []
  | ParenthesisRoundOpen => [glyphOr (f.displayParenthesis 1)]
  | ParenthesisRoundClosed => [glyphOr (f.displayParenthesis 2)]
  | ParenthesisSquaredOpen => [glyphOr (f.displayParenthesis 3)]
  | ParenthesisSquaredClosed => [glyphOr (f.displayParenthesis 4)]

/-- Modelled from the spec: the glyphs contributed by an accidental modifier
(indices follow the `Modifier` enum ordinals into `displayAccidental[6]`);
Plus, Backslash and Slash have no accidental glyph of their own — a Slash is
rendered through the "crossed" digit-style variant instead (spec
section 4.2). -/
def modifierGlyph (f : FiguredBassFont) : Modifier → List Char
  | ModifierNone => []
  | ModifierDoubleFlat => [glyphOr (f.displayAccidental 1)]
  | ModifierFlat => [glyphOr (f.displayAccidental 2)]
  | ModifierNatural => [glyphOr (f.displayAccidental 3)]
  | ModifierSharp => [glyphOr (f.displayAccidental 4)]
  | ModifierDoubleSharp => [glyphOr (f.displayAccidental 5)]
  | _ => []

/-- Modelled from the spec: the digit style index — the "crossed" glyph
variant (style 1) is selected by an adjacent Slash diacritic, the plain
variant (style 0) otherwise (spec section 4.2). -/
def digitStyle (suff : Modifier) : Fin 2 :=
  if suff = ModifierSlash then 1 else 0

/-- Modelled from the spec: the glyphs contributed by the digit field: none
for the 0 sentinel, else the style-specific digit glyph (variant 0) with the
blank fallback for a missing entry. -/
def digitGlyph (f : FiguredBassFont) (style : Fin 2) (d : ℤ) : List Char :=
  if h : 0 < d ∧ d < 10 then
    [glyphOr (f.displayDigit style ⟨d.toNat, by omega⟩ 0)]
  else []

/-- Modelled from the spec: `FiguredBassItem::displayText` (declared at
header line 183, body not in the excerpt): the concatenation of the glyphs of
every present field, in slot order; total — a missing table entry is covered
by the blank fallback (spec section 4.2). -/
def displayText (f : FiguredBassFont) (i : FiguredBassItem) : List Char :=
  parenGlyph f i.paren0 ++ modifierGlyph f i.pref ++ parenGlyph f i.paren1 ++
    digitGlyph f (digitStyle i.suff) i.digit ++ parenGlyph f i.paren2 ++
    modifierGlyph f i.suff ++ parenGlyph f i.paren3 ++ parenGlyph f i.paren4

/-- Modelled from the spec: lookup of a font by name in the loaded registry
(`FiguredBass::fontData` / section 4.3): an unknown name is recovered locally
by falling back to the designated default table, never surfacing a failure. -/
def fontByName (reg : List FiguredBassFont) (dflt : FiguredBassFont)
    (nm : List Char) : FiguredBassFont :=
  (reg.find? fun f => decide (f.family = nm)).getD dflt

lemma parenGlyph_blank {f : FiguredBassFont}
    (hp : ∀ k, f.displayParenthesis k = none) (p : Parenthesis) :
    ∀ c ∈ parenGlyph f p, c = blankGlyph := by
  cases p <;> simp [parenGlyph, glyphOr, hp]

lemma modifierGlyph_blank {f : FiguredBassFont}
    (ha : ∀ k, f.displayAccidental k = none) (m : Modifier) :
    ∀ c ∈ modifierGlyph f m, c = blankGlyph := by
  cases m <;> simp [modifierGlyph, glyphOr, ha]

lemma digitGlyph_blank {f : FiguredBassFont}
    (hd : ∀ a b c, f.displayDigit a b c = none) (style : Fin 2) (d : ℤ) :
    ∀ c ∈ digitGlyph f style d, c = blankGlyph := by
  unfold digitGlyph
  split <;> simp [glyphOr, hd]

/-- C8: Display-text totality — display-text generation is a total function
of the item and the glyph table; when the table lacks every entry, each
requested glyph is substituted by the default/blank glyph (so no missing
combination ever signals an error), and an unknown font name falls back to
the default table rather than surfacing a failure. -/
theorem displayText_total_fallback :
    (∀ (f : FiguredBassFont) (i : FiguredBassItem),
        (∀ k, f.displayAccidental k = none) →
        (∀ k, f.displayParenthesis k = none) →
        (∀ a b c, f.displayDigit a b c = none) →
        ∀ c ∈ displayText f i, c = blankGlyph) ∧
    (∀ (reg : List FiguredBassFont) (dflt : FiguredBassFont) (nm : List Char),
        (reg.find? fun f => decide (f.family = nm)) = none →
        fontByName reg dflt nm = dflt) := by
  constructor
  · intro f i ha hp hd c hc
    unfold displayText at hc
    simp only [List.mem_append] at hc
    rcases hc with ((((((h | h) | h) | h) | h) | h) | h) | h
    · exact parenGlyph_blank hp _ c h
    · exact modifierGlyph_blank ha _ c h
    · exact parenGlyph_blank hp _ c h
    · exact digitGlyph_blank hd _ _ c h
    · exact parenGlyph_blank hp _ c h
    · exact modifierGlyph_blank ha _ c h
    · exact parenGlyph_blank hp _ c h
    · exact parenGlyph_blank hp _ c h
  · intro reg dflt nm hfind
    unfold fontByName
    rw [hfind]
    rfl

/-- Witness for C8: the totality theorem applied to an entirely unconfigured
glyph table and the (sharp, 6, backslash) item, and to a font lookup in the
empty registry. -/
theorem displayText_total_fallback_witness :
    ((' ' : Char) = blankGlyph) ∧
    fontByName []
      (FiguredBassFont.mk ['d'] ['d'] 0 0 (fun _ => none) (fun _ => none)
        (fun _ _ _ => none)) ['q'] =
      FiguredBassFont.mk ['d'] ['d'] 0 0 (fun _ => none) (fun _ => none)
        (fun _ _ _ => none) :=
  ⟨displayText_total_fallback.1
      (FiguredBassFont.mk ['d'] ['d'] 0 0 (fun _ => none) (fun _ => none)
        (fun _ _ _ => none))
      (FiguredBassItem.mk ModifierSharp 6 ModifierBackslash false
        ParenthesisNone ParenthesisNone ParenthesisNone ParenthesisNone
        ParenthesisNone)
      (fun _ => rfl) (fun _ => rfl) (fun _ _ _ => rfl) ' '
      (by simp [displayText, parenGlyph, modifierGlyph, digitGlyph, digitStyle,
        glyphOr, blankGlyph]),
    displayText_total_fallback.2 []
      (FiguredBassFont.mk ['d'] ['d'] 0 0 (fun _ => none) (fun _ => none)
        (fun _ _ _ => none)) ['q'] rfl⟩

end FiguredBassSpec
